import Mathlib

/-!
Verification of the TutOrg content-script rule engine (src/content.js).

This file gives a shallow embedding of the rule-matching and orchestration
pipeline of the content script: value normalization (parseMultiValue),
predicate evaluation (matchesAnyValue, matchesRuleWithData), snapshot
collection (collectAllEmails), per-rule processing (processRule), the
orchestrator (runRulesOnPage), and the move-to-folder sub-flow
(moveToFolder).  DOM rows are modelled by their extracted sender/subject
strings; DOM side effects of performAction are modelled by an effect
function returning either a click log or a thrown fault message, mirroring
the try/catch in runRulesOnPage.  Strings are ASCII in all concrete
examples, so mapping Char.toLower models the script's toLowerCase calls.
-/

/-- ASCII model of the JS String.prototype.toLowerCase used by the
content script (the script only ever compares ASCII folder, sender and
subject text in its own examples and tests). -/
def toLowerCase (s : String) : String :=
  String.mk (s.data.map Char.toLower)

/-- Character-list model of JS String.prototype.startsWith at offset 0:
leadsWith pat l is true when pat is an initial segment of l. -/
def leadsWith : List Char → List Char → Bool
  | [], _ => true
  | _ :: _, [] => false
  | a :: as, b :: bs => a == b && leadsWith as bs

/-- Character-list model of JS String.prototype.includes: occursIn pat l
is true when pat occurs contiguously somewhere in l. -/
def occursIn (pat : List Char) : List Char → Bool
  | [] => leadsWith pat []
  | c :: rest => leadsWith pat (c :: rest) || occursIn pat rest

/-- strContains s pat models the JS expression s.includes(pat). -/
def strContains (s pat : String) : Bool :=
  occursIn pat.data s.data

/-- Character-list model of JS String.prototype.split with a one-character
separator: splitting the empty list gives one empty piece, and each
separator character starts a new piece. -/
def splitOnChar (sep : Char) : List Char → List (List Char)
  | [] => [[]]
  | c :: rest =>
    if c == sep then [] :: splitOnChar sep rest
    else
      match splitOnChar sep rest with
      | [] => [[c]]
      | h :: t => (c :: h) :: t

/-- Character-list model of JS String.prototype.trim: whitespace is
removed from both ends. -/
def trimChars (l : List Char) : List Char :=
  ((l.dropWhile Char.isWhitespace).reverse.dropWhile Char.isWhitespace).reverse

/-- Embedding of parseMultiValue (content.js lines 82-87): a falsy value
(empty string, modelling undefined as well) yields the empty list;
otherwise the string is split on commas, each piece trimmed, and empty
pieces dropped. -/
def parseMultiValue (value : String) : List String :=
  if value = "" then []
  else
    (((splitOnChar ',' value.data).map (fun l => String.mk (trimChars l))).filter
      (fun v => v.length > 0))

/-- Embedding of matchesAnyValue (content.js lines 92-100): false on empty
text or an empty value list; otherwise some value must compare equal
(exact) or be contained (not exact), both sides lower-cased first. -/
def matchesAnyValue (text : String) (values : List String) (exact : Bool) : Bool :=
  if text == "" || values.length == 0 then false
  else
    let lowerText := toLowerCase text
    values.any (fun value =>
      let lowerValue := toLowerCase value
      if exact then lowerText == lowerValue else strContains lowerText lowerValue)

/-- One entry of the email snapshot (content.js collectAllEmails, lines
248-265): the DOM row handle is represented by its collection index, and
sender and subject are the strings extracted at collection time. -/
structure Email where
  index : Nat
  sender : String
  subject : String
  processed : Bool
deriving Repr, DecidableEq

/-- A rule as the content script reads it: matchType selects the branch of
matchesRuleWithData, matchValue feeds the four single-field branches, and
senderValue and subjectValue feed the sender-and-subject branch.  Absent
JS fields are modelled by the empty string, which parseMultiValue treats
exactly like undefined (both are falsy). -/
structure Rule where
  name : String
  matchType : String
  matchValue : String
  senderValue : String
  subjectValue : String
  action : String
  targetFolder : String
deriving Repr, DecidableEq

/-- Embedding of matchesRuleWithData (content.js lines 289-318): switch on
rule.matchType; the exact variants are the matchType strings subject and
sender, the contains variants append -contains, sender-and-subject
combines two contains checks with AND, and every other matchType falls
through to false. -/
def matchesRuleWithData (email : Email) (rule : Rule) : Bool :=
  let sender := email.sender
  let subject := email.subject
  match rule.matchType with
  | "subject" => matchesAnyValue subject (parseMultiValue rule.matchValue) true
  | "subject-contains" => matchesAnyValue subject (parseMultiValue rule.matchValue) false
  | "sender" => matchesAnyValue sender (parseMultiValue rule.matchValue) true
  | "sender-contains" => matchesAnyValue sender (parseMultiValue rule.matchValue) false
  | "sender-and-subject" =>
      matchesAnyValue sender (parseMultiValue rule.senderValue) false &&
      matchesAnyValue subject (parseMultiValue rule.subjectValue) false
  | _ => false

/-- Embedding of findMatchingEmails (content.js lines 270-284): walk the
snapshot in collection order, skip entries already processed, and keep the
entries the rule matches. -/
def findMatchingEmails (rule : Rule) (emailsData : List Email) : List Email :=
  emailsData.filter (fun email => !email.processed && matchesRuleWithData email rule)

/-- The mutation matches.forEach setting processed to true (content.js
line 499): the entries of matches are exactly the snapshot entries that
are unprocessed and match the rule, so marking them is a map over the
snapshot flipping the processed flag on exactly those entries. -/
def markProcessed (rule : Rule) (emailsData : List Email) : List Email :=
  emailsData.map (fun e =>
    if !e.processed && matchesRuleWithData e rule then { e with processed := true } else e)

/-- Embedding of collectAllEmails (content.js lines 248-265) over a page
given as the list of (sender, subject) pairs its rows extract to, in DOM
order: each row becomes one snapshot entry with processed set to false. -/
def collectAllEmails (page : List (String × String)) : List Email :=
  page.enum.map (fun p => { index := p.1, sender := p.2.1, subject := p.2.2, processed := false })

/-- A JS value as it can reach the evaluator's value fields over the
message channel: undefined (an absent field), a string, or an array of
strings. -/
inductive JSVal where
  | undef : JSVal
  | str : String → JSVal
  | arr : List String → JSVal
deriving Repr, DecidableEq

/-- What parseMultiValue does on each dynamic shape of its argument: the
guard (the JS negation of value) is true for undefined and for the empty
string, returning the empty list; a non-empty string is split, trimmed and
filtered as in parseMultiValue; an array (even an empty one) is truthy in
JS, so control reaches the call of split on it, which throws a TypeError
because arrays have no split method. -/
def parseMultiValueJS : JSVal → Except String (List String)
  | JSVal.undef => Except.ok []
  | JSVal.str s => Except.ok (parseMultiValue s)
  | JSVal.arr _ => Except.error "TypeError: value.split is not a function"

/-- A rule with its value fields at their dynamic JS types.  The field
matchValues is the array-format field written by storage.createRule
(src/lib/storage.js lines 89-104); the evaluator in content.js never
reads it. -/
structure RuleJS where
  name : String
  matchType : String
  matchValue : JSVal
  matchValues : JSVal
  senderValue : JSVal
  subjectValue : JSVal
  action : String
  targetFolder : String
deriving Repr, DecidableEq

/-- matchesRuleWithData with the dynamic typing of its value-field reads
made explicit: each branch first runs parseMultiValue on the field it
uses, and a TypeError thrown there propagates out of the evaluator (in
the page it would be caught by the try/catch of runRulesOnPage, failing
the whole run). -/
def matchesRuleWithDataJS (email : Email) (rule : RuleJS) : Except String Bool :=
  let sender := email.sender
  let subject := email.subject
  match rule.matchType with
  | "subject" =>
      (parseMultiValueJS rule.matchValue).map (fun values => matchesAnyValue subject values true)
  | "subject-contains" =>
      (parseMultiValueJS rule.matchValue).map (fun values => matchesAnyValue subject values false)
  | "sender" =>
      (parseMultiValueJS rule.matchValue).map (fun values => matchesAnyValue sender values true)
  | "sender-contains" =>
      (parseMultiValueJS rule.matchValue).map (fun values => matchesAnyValue sender values false)
  | "sender-and-subject" =>
      match parseMultiValueJS rule.senderValue, parseMultiValueJS rule.subjectValue with
      | Except.ok senderValues, Except.ok subjectValues =>
          Except.ok (matchesAnyValue sender senderValues false &&
            matchesAnyValue subject subjectValues false)
      | Except.error e, _ => Except.error e
      | _, Except.error e => Except.error e
  | _ => Except.ok false

/-- The timing constants of content.js (TIMING, lines 38-43). -/
def TIMING.actionDelay : Nat := 500

/-- Quick-action delay from the TIMING table of content.js. -/
def TIMING.quickActionDelay : Nat := 300

/-- Folder settle delay from the TIMING table of content.js. -/
def TIMING.folderDelay : Nat := 800

/-- The state of the host page as the action functions observe it: which
action buttons resolve, when (in milliseconds after the Move click) the
folder dropdown becomes present, and the folder entries reachable by
test-id, by title attribute, and by text content. -/
structure ActionEnv where
  moveBtn : Bool
  dropdownAppearAt : Option Nat
  folderTestIds : List String
  folderTitles : List String
  folderTexts : List String
  trashBtn : Bool
  archiveBtn : Bool
  markReadBtn : Bool
  markUnreadBtn : Bool
deriving Repr, DecidableEq

/-- Whether the folder dropdown is present t milliseconds after the Move
click: once it appears it stays present. -/
def dropdownPresentAt (appearAt : Option Nat) (t : Nat) : Bool :=
  match appearAt with
  | none => false
  | some a => a ≤ t

/-- Embedding of moveToFolder (content.js lines 372-413): fail when the
Move button is absent; otherwise click it, sleep for the fixed
actionDelay, and look the dropdown up exactly once; fail when it is not
present at that single check.  Then the folder button is looked up by
exact test id or by title substring, with a fallback scan over the folder
buttons by text content; clicking any hit returns true, otherwise the
move fails. -/
def moveToFolder (env : ActionEnv) (folderName : String) : Bool :=
  if env.moveBtn = false then false
  else if dropdownPresentAt env.dropdownAppearAt TIMING.actionDelay = false then false
  else if env.folderTestIds.contains folderName ||
          env.folderTitles.any (fun t => strContains t folderName) then true
  else if env.folderTexts.any (fun t => strContains t folderName) then true
  else false

/-- The clicks moveToFolder performs, in order: the Move button when it
resolves, then the chosen folder button when the dropdown was present at
the single check and a folder entry was found. -/
def moveToFolderClicks (env : ActionEnv) (folderName : String) : List String :=
  if env.moveBtn = false then []
  else if dropdownPresentAt env.dropdownAppearAt TIMING.actionDelay = false then ["move"]
  else if env.folderTestIds.contains folderName ||
          env.folderTitles.any (fun t => strContains t folderName) then ["move", "folder"]
  else if env.folderTexts.any (fun t => strContains t folderName) then ["move", "folder"]
  else ["move"]

/-- The clicks performAction (content.js lines 415-458) performs: each
known action clicks its button when findButton resolves it and silently
does nothing otherwise; move-to-folder delegates to moveToFolder when the
rule has a targetFolder; an unknown action has no entry in the actions
table and does nothing.  The JS function body contains no return
statement, so its completion value is undefined regardless of whether any
control was found. -/
def performActionClicks (env : ActionEnv) (action : String) (rule : Rule) : List String :=
  match action with
  | "trash" => if env.trashBtn then ["trash"] else []
  | "archive" => if env.archiveBtn then ["archive"] else []
  | "move-to-folder" =>
      if rule.targetFolder ≠ "" then moveToFolderClicks env rule.targetFolder else []
  | "mark-read" => if env.markReadBtn then ["mark-read"] else []
  | "mark-unread" => if env.markUnreadBtn then ["mark-unread"] else []
  | _ => []

/-- The DOM interaction of one rule's selection-and-action step, as the
orchestrator sees it: either a log of the clicks performed, or a thrown
fault carried as its message string (caught by runRulesOnPage). -/
def ActionEffect : Type := Rule → Nat → Except String (List String)

/-- The non-throwing effect of performAction against a concrete page
state: performAction itself never throws on a missing control, it just
performs no click. -/
def actOf (env : ActionEnv) : ActionEffect :=
  fun rule _count => Except.ok (performActionClicks env rule.action rule)

/-- A page state on which no action control and no folder dropdown
resolves at all. -/
def envNone : ActionEnv :=
  { moveBtn := false, dropdownAppearAt := none, folderTestIds := [], folderTitles := [],
    folderTexts := [], trashBtn := false, archiveBtn := false, markReadBtn := false,
    markUnreadBtn := false }

/-- One line of RunResult.results (content.js line 529). -/
structure RuleResult where
  rule : String
  count : Nat
deriving Repr, DecidableEq

/-- The response of one orchestration pass (content.js lines 519, 538,
541): the failure object built in the catch block carries no results
field, modelled by none. -/
structure RunResult where
  success : Bool
  message : String
  results : Option (List RuleResult)
deriving Repr, DecidableEq

/-- Embedding of processRule (content.js lines 470-503): find the matches
among the snapshot, return count 0 when there are none; otherwise select
them and, when the action is not select-only, perform the action (whose
DOM interaction may throw) and mark exactly the matched entries
processed.  The returned triple is the count, the snapshot after the
flag mutation, and the click log of the action step. -/
def processRule (act : ActionEffect) (rule : Rule) (emailsData : List Email) :
    Except String (Nat × List Email × List String) :=
  let found := findMatchingEmails rule emailsData
  if found.length = 0 then Except.ok (0, emailsData, [])
  else if rule.action = "select-only" then Except.ok (found.length, emailsData, [])
  else
    match act rule found.length with
    | Except.error e => Except.error e
    | Except.ok clicks => Except.ok (found.length, markProcessed rule emailsData, clicks)

/-- The rule loop of runRulesOnPage (content.js lines 522-538) together
with its surrounding try/catch: each rule is processed against the
threaded snapshot, its count is accumulated into the total and pushed
onto results; a thrown fault stops the loop and yields the failure object
of the catch block, which carries only success and the fault's message. -/
def runRulesLoop (act : ActionEffect) :
    List Rule → List Email → Nat → List RuleResult → RunResult
  | [], _, totalProcessed, results =>
    { success := true,
      message := if totalProcessed > 0 then
          "Processed " ++ toString totalProcessed ++ " email(s)"
        else "No emails matched",
      results := some results }
  | rule :: rest, emailsData, totalProcessed, results =>
    match processRule act rule emailsData with
    | Except.error e => { success := false, message := e, results := none }
    | Except.ok (count, emailsData2, _clicks) =>
        runRulesLoop act rest emailsData2 (totalProcessed + count)
          (results ++ [{ rule := rule.name, count := count }])

/-- Embedding of runRulesOnPage (content.js lines 509-543): the snapshot
is collected exactly once, before any rule runs; when it is empty the
function returns early with success, the message No emails visible and an
empty results list; otherwise every rule is processed in list order
against the threaded snapshot. -/
def runRulesOnPage (act : ActionEffect) (page : List (String × String))
    (rules : List Rule) : RunResult :=
  let emailsData := collectAllEmails page
  if emailsData.length = 0 then
    { success := true, message := "No emails visible", results := some [] }
  else
    runRulesLoop act rules emailsData 0 []

/-- The field with all sender and subject text the predicate evaluator
ever reads from a snapshot entry, together with its row identity. -/
def emailFields (e : Email) : Nat × String × String :=
  (e.index, e.sender, e.subject)

lemma toLowerCase_length (s : String) : (toLowerCase s).length = s.length := by
  rw [toLowerCase]
  show (s.data.map Char.toLower).length = s.length
  rw [List.length_map]
  rfl

lemma strContains_nil (p : String) (hp : 0 < p.length) : strContains "" p = false := by
  unfold strContains
  cases hd : p.data with
  | nil =>
      exfalso
      have : p.length = 0 := by simp [String.length, hd]
      omega
  | cons c t => rfl

lemma parseMultiValue_pos (s : String) : ∀ v ∈ parseMultiValue s, 0 < v.length := by
  intro v hv
  unfold parseMultiValue at hv
  split at hv
  · simp at hv
  · simp only [List.mem_filter, decide_eq_true_eq] at hv
    exact hv.2

lemma matchesAnyValue_nil (t : String) (ex : Bool) : matchesAnyValue t [] ex = false := by
  simp [matchesAnyValue]

lemma matchesAnyValue_contains (text : String) (values : List String)
    (hv : ∀ v ∈ values, 0 < v.length) :
    matchesAnyValue text values false =
      values.any (fun v => strContains (toLowerCase text) (toLowerCase v)) := by
  unfold matchesAnyValue
  by_cases ht : text = ""
  · subst ht
    have hall : ∀ v ∈ values, strContains (toLowerCase "") (toLowerCase v) = false := by
      intro v hv'
      have : 0 < (toLowerCase v).length := by
        rw [toLowerCase_length]; exact hv v hv'
      simpa [toLowerCase] using strContains_nil (toLowerCase v) this
    simp only [beq_self_eq_true, Bool.true_or, if_true]
    exact (List.any_eq_false.mpr (by intro v hv'; simp [hall v hv'])).symm
  · by_cases hv0 : values = []
    · subst hv0; simp
    · have h1 : (text == "") = false := by simp [ht]
      have h2 : (values.length == 0) = false := by
        simp [List.length_eq_zero, hv0]
      simp [h1, h2]

lemma matchesRuleWithData_processed (e : Email) (b : Bool) (r : Rule) :
    matchesRuleWithData { e with processed := b } r = matchesRuleWithData e r := rfl

lemma findMatchingEmails_not_processed (r : Rule) (l : List Email) :
    ∀ e ∈ findMatchingEmails r l, e.processed = false := by
  intro e he
  simp only [findMatchingEmails, List.mem_filter, Bool.and_eq_true, Bool.not_eq_true'] at he
  exact he.2.1

lemma findMatchingEmails_matches (r : Rule) (l : List Email) :
    ∀ e ∈ findMatchingEmails r l, matchesRuleWithData e r = true := by
  intro e he
  simp only [findMatchingEmails, List.mem_filter, Bool.and_eq_true] at he
  exact he.2.2

lemma mem_findMatchingEmails (r : Rule) (l : List Email) (e : Email)
    (hmem : e ∈ l) (hp : e.processed = false) (hm : matchesRuleWithData e r = true) :
    e ∈ findMatchingEmails r l := by
  simp [findMatchingEmails, List.mem_filter, hmem, hp, hm]

/-- The concrete Email and Rule witnessing C1: a subject-exact rule (the
matchType string subject) with value newsletter, against an entry whose
subject NEWSLETTER differs from the value only in letter case. -/
def ruleSubjectExact : Rule :=
  { name := "r1", matchType := "subject", matchValue := "newsletter", senderValue := "",
    subjectValue := "", action := "select-only", targetFolder := "" }

/-- Snapshot entry whose subject differs from the rule value of
ruleSubjectExact only in letter case. -/
def emailCaseOnly : Email :=
  { index := 0, sender := "someone", subject := "NEWSLETTER", processed := false }

/-- C1: the claim says a subject-exact rule compares case-sensitively, so
an entry whose subject differs from every value only in letter case does
NOT match.  The code contradicts this (and the repository's own README,
which documents exact matches as case-sensitive): matchesAnyValue lowers
both sides before comparing even in exact mode, so the case-differing
entry DOES match.  This theorem evaluates the code at that failing
input. -/
theorem C1_exact_match_ignores_case :
    matchesRuleWithData emailCaseOnly ruleSubjectExact = true ∧
    emailCaseOnly.subject ≠ ruleSubjectExact.matchValue ∧
    toLowerCase emailCaseOnly.subject = toLowerCase ruleSubjectExact.matchValue := by
  refine ⟨rfl, by decide, rfl⟩

/-- Snapshot entry for the C3 evaluation: its subject contains the value
Newsletter. -/
def entryNews : Email :=
  { index := 0, sender := "x", subject := "Weekly Newsletter", processed := false }

/-- C3: the same rule with its value field in single-string shape. -/
def ruleShapeStr : RuleJS :=
  { name := "n", matchType := "subject-contains", matchValue := JSVal.str "Newsletter",
    matchValues := JSVal.undef, senderValue := JSVal.undef, subjectValue := JSVal.undef,
    action := "archive", targetFolder := "" }

/-- C3: the same rule with a list of strings sitting in the matchValue
field the evaluator reads. -/
def ruleShapeArr : RuleJS :=
  { name := "n", matchType := "subject-contains", matchValue := JSVal.arr ["Newsletter"],
    matchValues := JSVal.undef, senderValue := JSVal.undef, subjectValue := JSVal.undef,
    action := "archive", targetFolder := "" }

/-- C3: the shape storage.createRule actually persists: the list sits in
matchValues and the matchValue field the evaluator reads is absent. -/
def ruleShapeArrField : RuleJS :=
  { name := "n", matchType := "subject-contains", matchValue := JSVal.undef,
    matchValues := JSVal.arr ["Newsletter"], senderValue := JSVal.undef,
    subjectValue := JSVal.undef, action := "archive", targetFolder := "" }

/-- C3: the claim says the evaluator accepts a value field in either
single-string or list-of-strings shape with the same match result.  The
code does not: the string shape matches the entry, but a list placed in
the matchValue field makes parseMultiValue call split on an array, which
throws a TypeError, and the list-format field matchValues written by
storage.createRule is never read at all, so that shape silently never
matches.  The repository's own storage and UI layers support the list
shape, so this is a defect of the evaluator code, not of the claim. -/
theorem C3_list_shape_diverges :
    matchesRuleWithDataJS entryNews ruleShapeStr = Except.ok true ∧
    matchesRuleWithDataJS entryNews ruleShapeArr =
      Except.error "TypeError: value.split is not a function" ∧
    matchesRuleWithDataJS entryNews ruleShapeArrField = Except.ok false :=
  ⟨rfl, rfl, rfl⟩

/-- C4: the evaluator fails closed: a matchType outside the five known
strings never matches any entry, and when every normalized value list of
the rule is empty no matchType matches any entry. -/
theorem C4_fail_closed : ∀ (email : Email) (rule : Rule),
    (rule.matchType ∉ (["subject", "subject-contains", "sender", "sender-contains",
        "sender-and-subject"] : List String) →
      matchesRuleWithData email rule = false) ∧
    (parseMultiValue rule.matchValue = [] → parseMultiValue rule.senderValue = [] →
      parseMultiValue rule.subjectValue = [] → matchesRuleWithData email rule = false) := by
  intro email rule
  constructor
  · intro h
    unfold matchesRuleWithData
    split
    all_goals first
      | rfl
      | (exfalso; apply h; simp_all)
  · intro h1 h2 h3
    unfold matchesRuleWithData
    split
    all_goals simp [h1, h2, h3, matchesAnyValue_nil]

/-- Rule with a matchType the evaluator does not know. -/
def ruleUnknown : Rule :=
  { name := "u", matchType := "subject-regex", matchValue := "x", senderValue := "",
    subjectValue := "", action := "trash", targetFolder := "" }

/-- Rule whose value fields all normalize to the empty list. -/
def ruleEmptyValues : Rule :=
  { name := "e", matchType := "sender-contains", matchValue := " , ,", senderValue := "",
    subjectValue := "", action := "trash", targetFolder := "" }

/-- Witness for C4 at concrete inputs: the unknown matchType and the
all-empty normalized value lists both fail to match a concrete entry. -/
theorem C4_fail_closed_witness :
    matchesRuleWithData entryNews ruleUnknown = false ∧
    matchesRuleWithData entryNews ruleEmptyValues = false :=
  ⟨(C4_fail_closed entryNews ruleUnknown).1 (by decide),
   (C4_fail_closed entryNews ruleEmptyValues).2 (by decide) (by decide) (by decide)⟩

/-- C5: for matchType sender-and-subject the rule matches exactly when
the lower-cased sender contains the lower-case of some senderValues entry
AND the lower-cased subject contains the lower-case of some subjectValues
entry. -/
theorem C5_sender_and_subject : ∀ (email : Email) (rule : Rule),
    rule.matchType = "sender-and-subject" →
    (matchesRuleWithData email rule = true ↔
      ((parseMultiValue rule.senderValue).any
          (fun v => strContains (toLowerCase email.sender) (toLowerCase v)) = true ∧
       (parseMultiValue rule.subjectValue).any
          (fun v => strContains (toLowerCase email.subject) (toLowerCase v)) = true)) := by
  intro email rule h
  obtain ⟨n, mt, mv, sv, sbv, a, tf⟩ := rule
  simp only at h
  subst h
  have hstep : matchesRuleWithData email
      { name := n, matchType := "sender-and-subject", matchValue := mv, senderValue := sv,
        subjectValue := sbv, action := a, targetFolder := tf } =
      (matchesAnyValue email.sender (parseMultiValue sv) false &&
        matchesAnyValue email.subject (parseMultiValue sbv) false) := rfl
  rw [hstep, matchesAnyValue_contains _ _ (parseMultiValue_pos sv),
    matchesAnyValue_contains _ _ (parseMultiValue_pos sbv), Bool.and_eq_true]

lemma markProcessed_fields (r : Rule) (l : List Email) :
    (markProcessed r l).map emailFields = l.map emailFields := by
  unfold markProcessed
  rw [List.map_map]
  apply List.map_congr_left
  intro e _
  by_cases hc : (!e.processed && matchesRuleWithData e r) = true
  · simp only [Function.comp_apply, if_pos hc]
    rfl
  · simp only [Function.comp_apply, if_neg hc]

lemma processRule_fields (act : ActionEffect) (rule : Rule) (emails : List Email)
    (n : Nat) (emails2 : List Email) (clicks : List String)
    (h : processRule act rule emails = Except.ok (n, emails2, clicks)) :
    emails2.map emailFields = emails.map emailFields := by
  unfold processRule at h
  by_cases h0 : (findMatchingEmails rule emails).length = 0
  · rw [if_pos h0] at h
    simp only [Except.ok.injEq, Prod.mk.injEq] at h
    rw [← h.2.1]
  · rw [if_neg h0] at h
    by_cases hsel : rule.action = "select-only"
    · rw [if_pos hsel] at h
      simp only [Except.ok.injEq, Prod.mk.injEq] at h
      rw [← h.2.1]
    · rw [if_neg hsel] at h
      cases hp : act rule (findMatchingEmails rule emails).length with
      | error e => rw [hp] at h; exact absurd h (by simp)
      | ok cs =>
          rw [hp] at h
          simp only [Except.ok.injEq, Prod.mk.injEq] at h
          rw [← h.2.1]
          exact markProcessed_fields rule emails

lemma processRule_ok_spec (act : ActionEffect) (rule : Rule) (emails : List Email)
  (n : Nat) (emails2 : List Email) (clicks : List String)
  (h : processRule act rule emails = Except.ok (n, emails2, clicks)) :
  (rule.action = "select-only" → emails2 = emails) ∧
  (rule.action ≠ "select-only" →
    ∀ e ∈ emails2, matchesRuleWithData e rule = true → e.processed = true) := by
  unfold processRule at h
  by_cases h0 : (findMatchingEmails rule emails).length = 0
  · rw [if_pos h0] at h
    simp only [Except.ok.injEq, Prod.mk.injEq] at h
    obtain ⟨-, hem, -⟩ := h
    subst hem
    refine ⟨fun _ => rfl, ?_⟩
    intro _ e he hm
    by_contra hp
    have hp' : e.processed = false := by
      cases hep : e.processed
      · rfl
      · exact absurd hep hp
    have : e ∈ findMatchingEmails rule emails := mem_findMatchingEmails rule emails e he hp' hm
    rw [List.length_eq_zero.mp h0] at this
    exact absurd this (List.not_mem_nil e)
  · rw [if_neg h0] at h
    by_cases hsel : rule.action = "select-only"
    · rw [if_pos hsel] at h
      simp only [Except.ok.injEq, Prod.mk.injEq] at h
      obtain ⟨-, hem, -⟩ := h
      subst hem
      exact ⟨fun _ => rfl, fun hne => absurd hsel hne⟩
    · rw [if_neg hsel] at h
      cases hp : act rule (findMatchingEmails rule emails).length with
      | error e => rw [hp] at h; exact absurd h (by simp)
      | ok cs =>
          rw [hp] at h
          simp only [Except.ok.injEq, Prod.mk.injEq] at h
          obtain ⟨-, hem, -⟩ := h
          subst hem
          refine ⟨fun hs => absurd hs hsel, ?_⟩
          intro _ e he hm
          simp only [markProcessed, List.mem_map] at he
          obtain ⟨x, -, hxe⟩ := he
          by_cases hc : (!x.processed && matchesRuleWithData x rule) = true
          · rw [if_pos hc] at hxe
            rw [← hxe]
          · rw [if_neg hc] at hxe
            subst hxe
            simp only [Bool.and_eq_true, Bool.not_eq_true', hm, and_true] at hc
            cases hxp : x.processed
            · exact absurd hxp hc
            · rfl

/-- C2: a select-only rule leaves the snapshot entries untouched (so a
later rule in the same run can still match them); for every other action
the entries the rule matched carry processed set to true afterwards; and
findMatchingEmails only ever returns entries with processed still false,
so a processed entry is never matched or acted on again. -/
theorem C2_select_only_and_processed :
    (∀ (act : ActionEffect) (rule : Rule) (emails : List Email) (n : Nat)
        (emails2 : List Email) (clicks : List String),
      processRule act rule emails = Except.ok (n, emails2, clicks) →
      (rule.action = "select-only" → emails2 = emails) ∧
      (rule.action ≠ "select-only" →
        ∀ e ∈ emails2, matchesRuleWithData e rule = true → e.processed = true)) ∧
    (∀ (rule : Rule) (emails : List Email),
      ∀ e ∈ findMatchingEmails rule emails, e.processed = false) := by
  constructor
  · exact processRule_ok_spec
  · intro rule emails
    exact findMatchingEmails_not_processed rule emails

/-- The page of the claim's trash scenario: three rows whose subjects all
contain the rule value. -/
def page3 : List (String × String) :=
  [("a@x", "Sale now"), ("b@x", "Sale again"), ("c@x", "Sale third")]

/-- The snapshot of page3. -/
def emails3 : List Email := collectAllEmails page3

/-- The trash rule matching every row of page3. -/
def ruleTrash : Rule :=
  { name := "t", matchType := "subject-contains", matchValue := "sale", senderValue := "",
    subjectValue := "", action := "trash", targetFolder := "" }

/-- A select-only rule with the same predicate as ruleTrash. -/
def ruleSel : Rule :=
  { name := "s", matchType := "subject-contains", matchValue := "sale", senderValue := "",
    subjectValue := "", action := "select-only", targetFolder := "" }

/-- Witness for C2 at the claim's scenario: running the trash rule over
the three matching rows returns the snapshot with all three processed
set to true, and a concrete unprocessed matching entry is indeed among
the entries findMatchingEmails may return. -/
theorem C2_select_only_and_processed_witness :
    ((ruleTrash.action = "select-only" → markProcessed ruleTrash emails3 = emails3) ∧
     (ruleTrash.action ≠ "select-only" →
       ∀ e ∈ markProcessed ruleTrash emails3,
         matchesRuleWithData e ruleTrash = true → e.processed = true)) ∧
    ({ index := 0, sender := "a@x", subject := "Sale now", processed := false } : Email).processed
      = false :=
  ⟨C2_select_only_and_processed.1 (actOf envNone) ruleTrash emails3 3
      (markProcessed ruleTrash emails3) [] rfl,
   C2_select_only_and_processed.2 ruleTrash emails3
      { index := 0, sender := "a@x", subject := "Sale now", processed := false } (by decide)⟩

lemma runRulesLoop_names (act : ActionEffect) :
    ∀ (rules : List Rule) (emails : List Email) (total : Nat) (acc l : List RuleResult),
      (runRulesLoop act rules emails total acc).success = true →
      (runRulesLoop act rules emails total acc).results = some l →
      l.map RuleResult.rule = acc.map RuleResult.rule ++ rules.map Rule.name := by
  intro rules
  induction rules with
  | nil =>
      intro emails total acc l _ hres
      simp only [runRulesLoop, Option.some.injEq] at hres
      subst hres
      simp
  | cons rule rest ih =>
      intro emails total acc l hsucc hres
      simp only [runRulesLoop] at hsucc hres
      cases hp : processRule act rule emails with
      | error e =>
          rw [hp] at hsucc
          simp at hsucc
      | ok trip =>
          obtain ⟨count, emails2, cl⟩ := trip
          rw [hp] at hsucc hres
          simp only at hsucc hres
          have := ih emails2 (total + count) (acc ++ [{ rule := rule.name, count := count }]) l
            hsucc hres
          simpa using this

/-- C6: the snapshot discipline of the orchestrator.  First: one
processing step only ever flips processed flags, it never changes an
entry's captured sender, subject or row identity, so every rule in the
run evaluates the fields captured by the single collectAllEmails call of
runRulesOnPage.  Second: the matches of a rule are a sublist of the
snapshot, so entries are considered in collection (DOM) order.  Third: a
successful run reports one result per rule in exactly the input list
order. -/
theorem C6_snapshot_and_order :
    (∀ (act : ActionEffect) (rule : Rule) (emails : List Email) (n : Nat)
        (emails2 : List Email) (clicks : List String),
      processRule act rule emails = Except.ok (n, emails2, clicks) →
      emails2.map emailFields = emails.map emailFields) ∧
    (∀ (rule : Rule) (emails : List Email),
      List.Sublist (findMatchingEmails rule emails) emails) ∧
    (∀ (act : ActionEffect) (page : List (String × String)) (rules : List Rule)
        (l : List RuleResult),
      collectAllEmails page ≠ [] →
      (runRulesOnPage act page rules).success = true →
      (runRulesOnPage act page rules).results = some l →
      l.map RuleResult.rule = rules.map Rule.name) := by
  refine ⟨processRule_fields, ?_, ?_⟩
  · intro rule emails
    exact List.filter_sublist emails
  · intro act page rules l hne hsucc hres
    unfold runRulesOnPage at hsucc hres
    rw [if_neg (by simpa [List.length_eq_zero] using hne)] at hsucc hres
    simpa using runRulesLoop_names act rules (collectAllEmails page) 0 [] l hsucc hres

/-- Witness for C6: the two-rule run over page3 reports its two results
in input order, carrying the two rule names. -/
theorem C6_snapshot_and_order_witness :
    List.map RuleResult.rule
        [{ rule := "t", count := 3 }, { rule := "s", count := 0 }] =
      List.map Rule.name [ruleTrash, ruleSel] :=
  C6_snapshot_and_order.2.2 (actOf envNone) page3 [ruleTrash, ruleSel]
    [{ rule := "t", count := 3 }, { rule := "s", count := 0 }] (by decide) rfl rfl

/-- The sum of the per-rule counts of a results list. -/
def sumCounts (l : List RuleResult) : Nat :=
  (l.map RuleResult.count).sum

/-- The summary message runRulesOnPage builds from the processed total. -/
def summaryMessage (total : Nat) : String :=
  if total > 0 then "Processed " ++ toString total ++ " email(s)" else "No emails matched"

lemma processRule_no_fault (act : ActionEffect)
    (hact : ∀ r n, ∃ cs, act r n = Except.ok cs) (rule : Rule) (emails : List Email) :
    ∃ c e2 cl, processRule act rule emails = Except.ok (c, e2, cl) := by
  unfold processRule
  by_cases h0 : (findMatchingEmails rule emails).length = 0
  · rw [if_pos h0]
    exact ⟨0, emails, [], rfl⟩
  · rw [if_neg h0]
    by_cases hsel : rule.action = "select-only"
    · rw [if_pos hsel]
      exact ⟨_, emails, [], rfl⟩
    · rw [if_neg hsel]
      obtain ⟨cs, hcs⟩ := hact rule (findMatchingEmails rule emails).length
      rw [hcs]
      exact ⟨_, markProcessed rule emails, cs, rfl⟩

lemma runRulesLoop_no_fault (act : ActionEffect)
    (hact : ∀ r n, ∃ cs, act r n = Except.ok cs) :
    ∀ (rules : List Rule) (emails : List Email) (total : Nat) (acc : List RuleResult),
      ∃ l, runRulesLoop act rules emails total acc =
          { success := true, message := summaryMessage (total + sumCounts l),
            results := some (acc ++ l) } ∧
        l.map RuleResult.rule = rules.map Rule.name := by
  intro rules
  induction rules with
  | nil =>
      intro emails total acc
      refine ⟨[], ?_, by simp⟩
      simp [runRulesLoop, summaryMessage, sumCounts]
  | cons rule rest ih =>
      intro emails total acc
      obtain ⟨c, e2, cl, hp⟩ := processRule_no_fault act hact rule emails
      obtain ⟨l, hl, hnames⟩ := ih e2 (total + c) (acc ++ [{ rule := rule.name, count := c }])
      refine ⟨{ rule := rule.name, count := c } :: l, ?_, by simp [hnames]⟩
      simp only [runRulesLoop, hp]
      rw [hl]
      have hsum : total + c + sumCounts l = total + sumCounts ({ rule := rule.name, count := c } :: l) := by
        simp [sumCounts]
        omega
      rw [hsum]
      simp

/-- The archive rule of the claim's five-entry scenario. -/
def ruleNews : Rule :=
  { name := "n", matchType := "subject-contains", matchValue := "Newsletter",
    senderValue := "", subjectValue := "", action := "archive", targetFolder := "" }

/-- C7 counterexample: the claim says every fault-free run returns one
result entry per input rule.  On a page with no visible emails the code
returns early with an empty results list even when one rule was passed
in, and with the message No emails visible rather than the no-matches
message, so the claim as stated is false at this input. -/
theorem C7_counterexample_empty_page :
    (runRulesOnPage (actOf envNone) [] [ruleNews]).results = some [] ∧
    (runRulesOnPage (actOf envNone) [] [ruleNews]).message = "No emails visible" ∧
    [ruleNews].length = 1 :=
  ⟨rfl, rfl, rfl⟩

/-- C7 as amended: when at least one email is visible, a fault-free run
returns success with exactly one result per input rule in input order,
and the summary message is built from the sum of the per-rule counts,
reading No emails matched when that sum is zero (also for an empty rule
list); when no email is visible the run instead returns success with an
empty results list and the message No emails visible. -/
theorem C7_per_rule_results :
    (∀ (act : ActionEffect) (page : List (String × String)) (rules : List Rule),
      collectAllEmails page ≠ [] →
      (∀ r n, ∃ cs, act r n = Except.ok cs) →
      ∃ l, runRulesOnPage act page rules =
          { success := true, message := summaryMessage (sumCounts l), results := some l } ∧
        l.map RuleResult.rule = rules.map Rule.name ∧
        l.length = rules.length) ∧
    (∀ (act : ActionEffect) (rules : List Rule),
      runRulesOnPage act [] rules =
        { success := true, message := "No emails visible", results := some [] }) := by
  constructor
  · intro act page rules hne hact
    obtain ⟨l, hl, hnames⟩ := runRulesLoop_no_fault act hact rules (collectAllEmails page) 0 []
    refine ⟨l, ?_, hnames, ?_⟩
    · unfold runRulesOnPage
      rw [if_neg (by simpa [List.length_eq_zero] using hne)]
      simpa using hl
    · have := congrArg List.length hnames
      simpa using this
  · intro act rules
    rfl

/-- The page of the claim's scenario: five entries of which exactly two
have a subject containing Newsletter. -/
def page5 : List (String × String) :=
  [("a", "Daily Newsletter"), ("b", "Hello"), ("c", "Newsletter Weekly"),
   ("d", "Re: meeting"), ("e", "Invoice")]

/-- Witness for C7 at the claim's scenario: the run over the five-entry
page with the single Newsletter archive rule yields one result with
count 2 and the message reflecting 2, and the amended theorem applies at
this input. -/
theorem C7_per_rule_results_witness :
    runRulesOnPage (actOf envNone) page5 [ruleNews] =
      { success := true, message := "Processed 2 email(s)",
        results := some [{ rule := "n", count := 2 }] } ∧
    (∃ l, runRulesOnPage (actOf envNone) page5 [ruleNews] =
        { success := true, message := summaryMessage (sumCounts l), results := some l } ∧
      l.map RuleResult.rule = [ruleNews].map Rule.name ∧
      l.length = [ruleNews].length) :=
  ⟨rfl,
   C7_per_rule_results.1 (actOf envNone) page5 [ruleNews] (by decide)
     (fun r n => ⟨performActionClicks envNone r.action r, rfl⟩)⟩

/-- The effect of a page on which the DOM interaction of the rule named
second throws with message boom, while every other rule's action step
succeeds without clicks. -/
def actBoom : ActionEffect :=
  fun r _ => if r.name == "second" then Except.error "boom" else Except.ok []

/-- First rule of the C8 scenario; it completes with one match before the
fault. -/
def ruleFirst : Rule :=
  { name := "first", matchType := "sender-contains", matchValue := "alice",
    senderValue := "", subjectValue := "", action := "mark-read", targetFolder := "" }

/-- Second rule of the C8 scenario; its action step throws. -/
def ruleSecond : Rule :=
  { name := "second", matchType := "sender-contains", matchValue := "bob",
    senderValue := "", subjectValue := "", action := "trash", targetFolder := "" }

/-- Third rule of the C8 scenario; the fault aborts the run before it. -/
def ruleThird : Rule :=
  { name := "third", matchType := "subject-contains", matchValue := "Invoice",
    senderValue := "", subjectValue := "", action := "archive", targetFolder := "" }

/-- The two-row page of the C8 scenario. -/
def pageB : List (String × String) :=
  [("alice", "Invoice one"), ("bob", "Invoice two")]

/-- C8 counterexample: the claim says the rules completed before the
fault keep their recorded counts in the returned result.  In this run the
first rule completes with count 1, then the second rule's processing
throws boom; the catch block of runRulesOnPage builds its failure object
from success and message alone, so the returned result carries no results
list at all and the recorded count of the first rule is lost. -/
theorem C8_counterexample_counts_lost :
    runRulesOnPage actBoom pageB [ruleFirst, ruleSecond, ruleThird] =
      { success := false, message := "boom", results := none } :=
  rfl

/-- C8 as amended: a fault while processing a rule stops the loop; the
run returns success false with the fault's description string as the
message; the remaining rules are not processed (the result does not
depend on them); but the counts recorded for the rules completed before
the fault are NOT part of the returned failure result, which carries no
results list. -/
theorem C8_fault_aborts :
    ∀ (act : ActionEffect) (rule : Rule) (rest : List Rule) (emails : List Email)
      (total : Nat) (acc : List RuleResult) (e : String),
      processRule act rule emails = Except.error e →
      runRulesLoop act (rule :: rest) emails total acc =
        { success := false, message := e, results := none } := by
  intro act rule rest emails total acc e h
  simp only [runRulesLoop, h]

/-- The C8 snapshot after the first rule completed: the alice row is
already processed. -/
def emailsB1 : List Email := markProcessed ruleFirst (collectAllEmails pageB)

/-- Witness for C8 as amended, at the concrete faulting step of the C8
scenario: resuming the loop at the second rule with the first rule's
recorded count in the accumulator yields the bare failure object. -/
theorem C8_fault_aborts_witness :
    runRulesLoop actBoom [ruleSecond, ruleThird] emailsB1 1 [{ rule := "first", count := 1 }] =
      { success := false, message := "boom", results := none } :=
  C8_fault_aborts actBoom ruleSecond [ruleThird] emailsB1 1 [{ rule := "first", count := 1 }]
    "boom" rfl

/-- Whether a folder entry matching the folder name resolves on the page,
through any of the three lookups moveToFolder tries: exact dropdown test
id, title-attribute substring, or text-content substring. -/
def folderEntryFound (env : ActionEnv) (folderName : String) : Bool :=
  env.folderTestIds.contains folderName ||
    env.folderTitles.any (fun t => strContains t folderName) ||
    env.folderTexts.any (fun t => strContains t folderName)

/-- Modelled from the spec: the claim's reading of the move flow, in
which after the Move click the dropdown is polled for a bounded number of
attempts at a short fixed interval before giving up.  The schedule is the
one the repository itself uses for polling this dropdown, in its folder
discovery function fetchFoldersFromDropdown: a first check 300
milliseconds after the click and up to ten checks 100 milliseconds
apart. -/
def moveToFolderClaim (env : ActionEnv) (folderName : String) : Bool :=
  if env.moveBtn = false then false
  else if ((List.range 10).any
      (fun i => dropdownPresentAt env.dropdownAppearAt (300 + 100 * i))) = false then false
  else folderEntryFound env folderName

/-- A page on which the Move button resolves, the folder dropdown becomes
present 800 milliseconds after the Move click, and the target folder
exists. -/
def envLate : ActionEnv :=
  { moveBtn := true, dropdownAppearAt := some 800, folderTestIds := ["Work"],
    folderTitles := [], folderTexts := [], trashBtn := false, archiveBtn := false,
    markReadBtn := false, markUnreadBtn := false }

/-- C9 counterexample: the claim says the move flow polls a bounded
number of attempts for the dropdown.  The code of moveToFolder does not
poll: it sleeps once for the fixed actionDelay of 500 milliseconds and
looks the dropdown up exactly once.  On a page where the dropdown
appears 800 milliseconds after the click — well inside the attempt
budget of the repository's own poller, as moveToFolderClaim shows — and
the target folder exists, moveToFolder nevertheless returns false and
the whole move is aborted. -/
theorem C9_counterexample_no_polling :
    moveToFolder envLate "Work" = false ∧
    moveToFolderClaim envLate "Work" = true ∧
    dropdownPresentAt envLate.dropdownAppearAt 800 = true ∧
    envLate.folderTestIds.contains "Work" = true := by
  refine ⟨rfl, rfl, rfl, rfl⟩

/-- C9 as amended: moveToFolder returns a boolean that is true exactly
when the Move control was found, the folder dropdown was present at the
single check made a fixed 500 milliseconds after the Move click, and a
folder entry matching the target folder was found and clicked; it
returns false when the Move control is missing, when the dropdown is
absent at that one check — there is no polling, so a dropdown appearing
any time after the 500 millisecond mark is missed — or when no folder
entry matches.  The enclosing performAction discards this boolean. -/
theorem C9_move_single_check :
    ∀ (env : ActionEnv) (folderName : String),
      (moveToFolder env folderName = true ↔
        (env.moveBtn = true ∧
         dropdownPresentAt env.dropdownAppearAt TIMING.actionDelay = true ∧
         folderEntryFound env folderName = true)) ∧
      (∀ a, env.dropdownAppearAt = some a → TIMING.actionDelay < a →
        moveToFolder env folderName = false) := by
  intro env folderName
  constructor
  · unfold moveToFolder folderEntryFound
    by_cases hm : env.moveBtn = false
    · rw [if_pos hm]
      simp [hm]
    · rw [if_neg hm]
      have hm' : env.moveBtn = true := by
        cases h : env.moveBtn
        · exact absurd h hm
        · rfl
      by_cases hd : dropdownPresentAt env.dropdownAppearAt TIMING.actionDelay = false
      · rw [if_pos hd]
        simp [hd]
      · rw [if_neg hd]
        have hd' : dropdownPresentAt env.dropdownAppearAt TIMING.actionDelay = true := by
          cases h : dropdownPresentAt env.dropdownAppearAt TIMING.actionDelay
          · exact absurd h hd
          · rfl
        by_cases h1 : (env.folderTestIds.contains folderName ||
            env.folderTitles.any (fun t => strContains t folderName)) = true
        · rw [if_pos h1]
          simp only [hm', hd', true_and, Bool.or_eq_true] at h1 ⊢
          tauto
        · rw [if_neg h1]
          by_cases h2 : (env.folderTexts.any (fun t => strContains t folderName)) = true
          · rw [if_pos h2]
            simp only [hm', hd', true_and, Bool.or_eq_true] at h1 h2 ⊢
            tauto
          · rw [if_neg h2]
            simp only [Bool.or_eq_true] at h1 h2 ⊢
            simp only [hm', hd', true_and]
            constructor
            · intro hfalse
              exact absurd hfalse.symm (by simp)
            · intro hor
              tauto
  · intro a ha hlt
    unfold moveToFolder
    by_cases hm : env.moveBtn = false
    · rw [if_pos hm]
    · rw [if_neg hm]
      have : dropdownPresentAt env.dropdownAppearAt TIMING.actionDelay = false := by
        rw [ha]
        unfold dropdownPresentAt
        simp only [decide_eq_false_iff_not]
        omega
      rw [if_pos this]

/-- Witness for C9 as amended at the concrete late-dropdown page: the
single 500 millisecond check misses the dropdown appearing at 800
milliseconds, so the move aborts. -/
theorem C9_move_single_check_witness :
    moveToFolder envLate "Work" = false :=
  (C9_move_single_check envLate "Work").2 800 rfl (by decide)

lemma performActionClicks_envNone (a : String) (r : Rule) :
    performActionClicks envNone a r = [] := by
  unfold performActionClicks
  split
  · rfl
  · rfl
  · split
    · unfold moveToFolderClicks
      rfl
    · rfl
  · rfl
  · rfl
  · rfl

/-- C10: for a rule whose action is not select-only, processRule marks
every matched entry processed even against a page on which no action
control resolves at all, so that the action performed no click and
nothing happened on the page; those entries are then invisible to every
later rule of the run, whose findMatchingEmails can never return an
entry that the earlier rule matched. -/
theorem C10_processed_despite_noop :
    ∀ (rule : Rule) (emails : List Email) (n : Nat) (emails2 : List Email)
      (clicks : List String),
      rule.action ≠ "select-only" →
      processRule (actOf envNone) rule emails = Except.ok (n, emails2, clicks) →
      clicks = [] ∧
      (∀ e ∈ emails2, matchesRuleWithData e rule = true → e.processed = true) ∧
      (∀ (r2 : Rule) (e : Email), e ∈ findMatchingEmails r2 emails2 →
        matchesRuleWithData e rule = false) := by
  intro rule emails n emails2 clicks hsel h
  have hmarked : ∀ e ∈ emails2, matchesRuleWithData e rule = true → e.processed = true :=
    (processRule_ok_spec (actOf envNone) rule emails n emails2 clicks h).2 hsel
  refine ⟨?_, hmarked, ?_⟩
  · unfold processRule at h
    by_cases h0 : (findMatchingEmails rule emails).length = 0
    · rw [if_pos h0] at h
      simp only [Except.ok.injEq, Prod.mk.injEq] at h
      exact h.2.2.symm
    · rw [if_neg h0, if_neg hsel] at h
      rw [show actOf envNone rule (findMatchingEmails rule emails).length =
          Except.ok (performActionClicks envNone rule.action rule) from rfl] at h
      simp only [Except.ok.injEq, Prod.mk.injEq] at h
      rw [← h.2.2]
      exact performActionClicks_envNone rule.action rule
  · intro r2 e he
    have hmem : e ∈ emails2 := List.mem_of_mem_filter he
    have hunp : e.processed = false := findMatchingEmails_not_processed r2 emails2 e he
    cases hm : matchesRuleWithData e rule
    · rfl
    · have := hmarked e hmem hm
      rw [this] at hunp
      exact absurd hunp (by simp)

/-- Witness for C10 at the trash scenario over the no-control page: all
three matched entries come back processed although not a single click
was performed. -/
theorem C10_processed_despite_noop_witness :
    (([] : List String) = []) ∧
    (∀ e ∈ markProcessed ruleTrash emails3,
      matchesRuleWithData e ruleTrash = true → e.processed = true) ∧
    (∀ (r2 : Rule) (e : Email), e ∈ findMatchingEmails r2 (markProcessed ruleTrash emails3) →
      matchesRuleWithData e ruleTrash = false) :=
  C10_processed_despite_noop ruleTrash emails3 3 (markProcessed ruleTrash emails3) []
    (by decide) rfl

/-- The sender-and-subject example rule of the claim. -/
def ruleAliceInvoice : Rule :=
  { name := "ai", matchType := "sender-and-subject", matchValue := "",
    senderValue := "alice", subjectValue := "invoice", action := "trash",
    targetFolder := "" }

/-- The matching entry of the claim's sender-and-subject example. -/
def entryAliceInvoice : Email :=
  { index := 0, sender := "Alice Smith", subject := "Your Invoice", processed := false }

/-- The non-matching entry of the claim's sender-and-subject example. -/
def entryAliceNews : Email :=
  { index := 1, sender := "Alice Smith", subject := "Newsletter", processed := false }

/-- Witness for C5: the characterization instantiated at the claim's own
example rule and entry, plus the claim's two concrete examples evaluated:
Alice Smith with Your Invoice matches, Alice Smith with Newsletter does
not. -/
theorem C5_sender_and_subject_witness :
    (matchesRuleWithData entryAliceInvoice ruleAliceInvoice = true ↔
      ((parseMultiValue ruleAliceInvoice.senderValue).any
          (fun v => strContains (toLowerCase entryAliceInvoice.sender) (toLowerCase v)) = true ∧
       (parseMultiValue ruleAliceInvoice.subjectValue).any
          (fun v => strContains (toLowerCase entryAliceInvoice.subject) (toLowerCase v)) = true)) ∧
    matchesRuleWithData entryAliceInvoice ruleAliceInvoice = true ∧
    matchesRuleWithData entryAliceNews ruleAliceInvoice = false :=
  ⟨C5_sender_and_subject entryAliceInvoice ruleAliceInvoice rfl, rfl, rfl⟩

